import Mathlib

/-!
Verification of the `yaml_pathfinder` path-resolution and typed-extraction
engine (`src/pathfinder.rs`), shallowly embedded in Lean.

The document tree is the external `yaml_rust::Yaml` value type, which the
core only inspects through its variant accessors (`as_str`, `as_i64`,
`as_bool`, `as_f64`, `as_hash`, `as_vec`) and through hash/array lookup;
it is embedded here as a closed inductive with those accessors.
`yaml_rust` stores the `Real` payload as its source text and parses it on
access; since no claim exercises that parse, the variant carries the parsed
float directly, matching the spec's data model (§3: a Float scalar).
-/

set_option autoImplicit false

namespace PathFinder

inductive Yaml where
  | real (v : Float)
  | integer (v : Int)
  | string (v : String)
  | boolean (v : Bool)
  | array (v : List Yaml)
  | hash (v : List (Yaml × Yaml))
  | aliasAnchor (v : Nat)
  | null
  | badValue

namespace Yaml

/-- `yaml_rust`'s `Yaml::as_str`: `Some` only for the `String` variant. -/
def as_str : Yaml → Option String
  | .string s => some s
  | _ => none

/-- `yaml_rust`'s `Yaml::as_i64`: `Some` only for the `Integer` variant. -/
def as_i64 : Yaml → Option Int
  | .integer i => some i
  | _ => none

/-- `yaml_rust`'s `Yaml::as_bool`: `Some` only for the `Boolean` variant. -/
def as_bool : Yaml → Option Bool
  | .boolean b => some b
  | _ => none

/-- `yaml_rust`'s `Yaml::as_f64`: `Some` only for the `Real` variant. -/
def as_f64 : Yaml → Option Float
  | .real f => some f
  | _ => none

/-- `yaml_rust`'s `Yaml::as_hash`: `Some` only for the `Hash` variant. -/
def as_hash : Yaml → Option (List (Yaml × Yaml))
  | .hash h => some h
  | _ => none

/-- `yaml_rust`'s `Yaml::as_vec`: `Some` only for the `Array` variant. -/
def as_vec : Yaml → Option (List Yaml)
  | .array v => some v
  | _ => none

end Yaml

/-- `yaml_rust` hash keys are arbitrary `Yaml` values; the walker only ever
looks up the key `Yaml::String(segment)`, which equals an entry's key iff
that key is the `String` variant with the same contents. -/
def keyEq : Yaml → String → Bool
  | .string s, t => s == t
  | _, _ => false

/-- `hash.get(&Yaml::String(key))` on the ordered hash map. -/
def hashGet (entries : List (Yaml × Yaml)) (key : String) : Option Yaml :=
  (entries.find? (fun e => keyEq e.fst key)).map (fun e => e.snd)

/-- Split a character list at every separator character; separators are
dropped and groups between them are kept (empty groups included), like
Rust's `str::split` on a `char` pattern. -/
def splitChar (sep : Char → Bool) : List Char → List (List Char)
  | [] => [[]]
  | c :: cs =>
    if sep c then
      [] :: splitChar sep cs
    else
      match splitChar sep cs with
      | [] => [[c]]
      | g :: gs => (c :: g) :: gs

/-- Modelled from the spec: the path module (`crate::path`, re-exported by
`pathfinder.rs` but not under src/) turns a path expression into its
alternatives by "splitting on a designated alternative-separator character
(`|`)" (§3); each substring is one alternative, in left-to-right order
(§4.1). -/
def alternatives (expr : String) : List String :=
  (splitChar (fun c => c == '|') expr.data).map (fun l => String.mk l)

/-- Modelled from the spec: `YPath::elements` (in `crate::path`, not under
src/) splits one alternative into its segment sequence "on `.` or `/`
separator characters" (§3, §4.1). -/
def elements (path : String) : List String :=
  (splitChar (fun c => c == '.' || c == '/') path.data).map (fun l => String.mk l)

/-- Modelled from the spec: constructing a `YPaths` from a caller string
(the `Into<YPaths>` conversion in `crate::path`, not under src/) must
"reject or assert" on whitespace anywhere in the expression (§4.1, §7);
`none` models that assertion failure (panic), `some` carries the parsed
alternative list. -/
def ypaths? (expr : String) : Option (List String) :=
  if expr.data.any Char.isWhitespace then none else some (alternatives expr)

/-- Accumulate base-10 digits; any non-digit character fails the parse. -/
def digitsVal (acc : Nat) : List Char → Option Nat
  | [] => some acc
  | c :: cs => if c.isDigit then digitsVal (10 * acc + (c.toNat - 48)) cs else none

/-- Rust's `str::parse::<usize>`: an optional leading `+` followed by one
or more base-10 digits. Overflow (a value above `usize::MAX`) makes the
Rust parse fail where this `Nat` parse succeeds; both lead `get_path` to
`none`, since such an index is out of bounds for any array. -/
def parseUsize (s : String) : Option Nat :=
  match s.data with
  | [] => none
  | '+' :: rest => if rest.isEmpty then none else digitsVal 0 rest
  | l => digitsVal 0 l

/-- `PathFinder::get_path`: walk the segment list, descending hashes by key
and arrays by parsed numeric index. -/
def get_path : Yaml → List String → Option Yaml
  | data, path :: remainder =>
    match data with
    | .hash h =>
      if remainder.isEmpty then
        hashGet h path
      else
        (hashGet h path).bind (fun c => get_path c remainder)
    | .array v =>
      match parseUsize path with
      | some index =>
        if remainder.isEmpty then
          v.get? index
        else
          (v.get? index).bind (fun c => get_path c remainder)
      | none => none
    | _ => none
  | _, [] => none

/-- `PathFinder::get_direct`: walk one alternative's elements and replace a
resolved `Null` or `BadValue` by `none`. -/
def get_direct (data : Yaml) (path : String) : Option Yaml :=
  match get_path data (elements path) with
  | some .badValue => none
  | some .null => none
  | content => content

/-- `PathFinder::get`: try every alternative in order, keeping the first
one that resolves (`filter_map(..).nth(0)`). -/
def get (data : Yaml) (paths : List String) : Option Yaml :=
  (paths.filterMap (fun path => get_direct data path)).head?

/-- Modelled from the spec: `crate::error` (re-exported by `pathfinder.rs`
but not under src/) classifies a failed extraction as "Missing or
Invalid(detail message)" (§3, §7); `pathfinder.rs` itself constructs
exactly `FieldError::Missing` and `FieldError::Invalid(String)`. -/
inductive FieldError where
  | missing
  | invalid (msg : String)
deriving DecidableEq

/-- Modelled from the spec: `FieldResult<T>` is the usual success-or-
`FieldError` result type (`FieldResult::Ok` / `Err` in `pathfinder.rs`). -/
abbrev FieldResult (α : Type) := Except FieldError α

mutual

/-- Rust's `{:?}` (derived `Debug`) rendering of a `yaml_rust::Yaml` node,
used inside `Invalid` messages; string escaping is omitted. -/
def debugRepr : Yaml → String
  | .real v => "Real(" ++ toString v ++ ")"
  | .integer i => "Integer(" ++ toString i ++ ")"
  | .string s => "String(\"" ++ s ++ "\")"
  | .boolean b => "Boolean(" ++ toString b ++ ")"
  | .array xs => "Array([" ++ debugReprList xs ++ "])"
  | .hash xs => "Hash(\x7b" ++ debugReprHash xs ++ "\x7d)"
  | .aliasAnchor i => "Alias(" ++ toString i ++ ")"
  | .null => "Null"
  | .badValue => "BadValue"

def debugReprList : List Yaml → String
  | [] => ""
  | [x] => debugRepr x
  | x :: xs => debugRepr x ++ ", " ++ debugReprList xs

def debugReprHash : List (Yaml × Yaml) → String
  | [] => ""
  | [(k, v)] => debugRepr k ++ ": " ++ debugRepr v
  | (k, v) :: xs => debugRepr k ++ ": " ++ debugRepr v ++ ", " ++ debugReprHash xs

end

/-- `PathFinder::field`: parse the path (the `path.into()` conversion,
which asserts on whitespace — the outer `none` models that panic), resolve
it with `get`, then apply the coercion; no node is `Missing`, a node the
coercion rejects is `Invalid` with the label and the node's debug
rendering (`format!("\x7b\x7d (\x7b:?\x7d)", err, node)`). -/
def field {α : Type} (data : Yaml) (path : String) (err : String)
    (parser : Yaml → Option α) : Option (FieldResult α) :=
  (ypaths? path).map (fun alts =>
    match get data alts with
    | none => Except.error FieldError.missing
    | some node =>
      match parser node with
      | none => Except.error (FieldError.invalid (err ++ " (" ++ debugRepr node ++ ")"))
      | some parsed => Except.ok parsed)

/-- `PathFinder::get_str`. -/
def get_str (data : Yaml) (path : String) : Option (FieldResult String) :=
  field data path "not a string" Yaml.as_str

/-- `PathFinder::get_string` (the borrowed result of `get_str` converted
`Into` an owned string; the conversion is the identity in this model). -/
def get_string (data : Yaml) (path : String) : Option (FieldResult String) :=
  (field data path "not a string" Yaml.as_str).map (fun r => r.map id)

/-- `PathFinder::get_int`. -/
def get_int (data : Yaml) (path : String) : Option (FieldResult Int) :=
  field data path "not an integer" Yaml.as_i64

/-- Rust's `str::to_lowercase`, at its call contract: lowercase every
character (given per character by `Char.toLower`; the multi-character
Unicode special cases do not affect the `"yes"` comparison). -/
def lowercase (s : String) : String :=
  String.mk (s.data.map Char.toLower)

/-- `PathFinder::get_bool`: native booleans pass through; otherwise a
string is lenient-coerced, `"yes"` (lowercased) mapping to `true` and any
other string to `false`. -/
def get_bool (data : Yaml) (path : String) : Option (FieldResult Bool) :=
  field data path "not a boolean" (fun y =>
    (y.as_bool).orElse (fun _ =>
      (y.as_str).map (fun yes_or_no =>
        match lowercase yes_or_no with
        | "yes" => true
        | _ => false)))

/-- `PathFinder::get_bool_strict`. -/
def get_bool_strict (data : Yaml) (path : String) : Option (FieldResult Bool) :=
  field data path "not a boolean" (fun y => y.as_bool)

/-- `PathFinder::get_hash`. -/
def get_hash (data : Yaml) (path : String) : Option (FieldResult (List (Yaml × Yaml))) :=
  field data path "not a hash" Yaml.as_hash

/-- `PathFinder::get_vec`. -/
def get_vec (data : Yaml) (path : String) : Option (FieldResult (List Yaml)) :=
  field data path "not a vector" Yaml.as_vec

/-- `PathFinder::get_f64`: a `Real` node as-is, else an `Integer` node
reinterpreted (`y as f64`). -/
def get_f64 (data : Yaml) (path : String) : Option (FieldResult Float) :=
  field data path "not a float" (fun y =>
    (y.as_f64).orElse (fun _ => (y.as_i64).map (fun i => Float.ofInt i)))

/-- A key string that is a single, plain segment: no whitespace (so the
`YPaths` conversion accepts it), no `|` (single alternative) and no
separator (single segment). -/
def plainKey (k : String) : Prop :=
  ∀ c ∈ k.data, c.isWhitespace = false ∧ (c == '|') = false ∧
    (c == '.') = false ∧ (c == '/') = false

instance (k : String) : Decidable (plainKey k) := by
  unfold plainKey; infer_instance

/-- The scalar variants named by the spec (§4.2): String, Integer, Float,
Boolean, Null, BadValue. -/
def isScalar : Yaml → Bool
  | .string _ => true
  | .integer _ => true
  | .real _ => true
  | .boolean _ => true
  | .null => true
  | .badValue => true
  | _ => false

end PathFinder

namespace PathFinder

/-! ### Splitting lemmas -/

theorem splitChar_ne_nil (sep : Char → Bool) (l : List Char) :
    splitChar sep l ≠ [] := by
  induction l with
  | nil => simp [splitChar]
  | cons c cs ih =>
    simp only [splitChar]
    split
    · simp
    · split
      · simp
      · simp

theorem splitChar_eq_single (sep : Char → Bool) (l : List Char)
    (h : ∀ c ∈ l, sep c = false) : splitChar sep l = [l] := by
  induction l with
  | nil => rfl
  | cons c cs ih =>
    have hc : sep c = false := h c (List.mem_cons_self c cs)
    have hcs : splitChar sep cs = [cs] :=
      ih (fun d hd => h d (List.mem_cons_of_mem c hd))
    simp [splitChar, hc, hcs]

theorem splitChar_append (sep : Char → Bool) (c : Char) (hc : sep c = true)
    (l r : List Char) :
    splitChar sep (l ++ c :: r) = splitChar sep l ++ splitChar sep r := by
  induction l with
  | nil => simp [splitChar, hc]
  | cons d ds ih =>
    cases hsd : sep d with
    | true => simp [splitChar, hsd, ih]
    | false =>
      rcases hne : splitChar sep ds with _ | ⟨g, gs⟩
      · exact absurd hne (splitChar_ne_nil sep ds)
      · simp [splitChar, hsd, ih, hne, List.append_eq]

theorem alternatives_append_pipe (a b : String) :
    alternatives (a ++ "|" ++ b) = alternatives a ++ alternatives b := by
  have hdata : (a ++ "|" ++ b).data = a.data ++ '|' :: b.data := by
    simp [String.data_append]
  simp [alternatives, hdata, splitChar_append (fun c => c == '|') '|' rfl]

theorem alternatives_eq_single (s : String)
    (h : ∀ c ∈ s.data, (c == '|') = false) : alternatives s = [s] := by
  obtain ⟨d⟩ := s
  simp [alternatives, splitChar_eq_single _ _ h]

theorem elements_eq_single (s : String)
    (h : ∀ c ∈ s.data, (c == '.' || c == '/') = false) : elements s = [s] := by
  obtain ⟨d⟩ := s
  simp [elements, splitChar_eq_single _ _ h]

/-! ### Claims -/

/-- C1: Alternative precedence — for every document tree and path
expression `"a|b"`, if both alternative `a` and alternative `b` resolve to
non-null, non-bad nodes (`get_direct` returns `some`), then `get` on
`"a|b"` equals `get` on `a` alone: the first alternative wins and later
alternatives are ignored. -/
theorem alternative_precedence (data : Yaml) (a b : String) (na nb : Yaml)
    (hA : alternatives a = [a]) (hB : alternatives b = [b])
    (ha : get_direct data a = some na) (hb : get_direct data b = some nb) :
    get data (alternatives (a ++ "|" ++ b)) = get data (alternatives a) := by
  rw [alternatives_append_pipe, hA, hB]
  simp [get, ha, hb]

theorem alternative_precedence_witness :
    alternatives "x" = ["x"] ∧ alternatives "y" = ["y"] ∧
    get_direct (Yaml.hash [(Yaml.string "x", Yaml.string "1"), (Yaml.string "y", Yaml.string "2")]) "x"
      = some (Yaml.string "1") ∧
    get_direct (Yaml.hash [(Yaml.string "x", Yaml.string "1"), (Yaml.string "y", Yaml.string "2")]) "y"
      = some (Yaml.string "2") ∧
    get (Yaml.hash [(Yaml.string "x", Yaml.string "1"), (Yaml.string "y", Yaml.string "2")])
        (alternatives ("x" ++ "|" ++ "y"))
      = get (Yaml.hash [(Yaml.string "x", Yaml.string "1"), (Yaml.string "y", Yaml.string "2")])
          (alternatives "x") :=
  ⟨rfl, rfl, rfl, rfl,
    alternative_precedence _ "x" "y" _ _ rfl rfl rfl rfl⟩

/-- C2: Fallback — for every document tree and path expression `"a|b"`, if
alternative `a` resolves to nothing (absent, `Null`, or `BadValue`, all of
which make `get_direct` return `none`) and alternative `b` resolves to a
non-null, non-bad node, then `get` on `"a|b"` equals `get` on `b` alone. -/
theorem fallback_second_alternative (data : Yaml) (a b : String) (nb : Yaml)
    (hA : alternatives a = [a]) (hB : alternatives b = [b])
    (ha : get_direct data a = none) (hb : get_direct data b = some nb) :
    get data (alternatives (a ++ "|" ++ b)) = get data (alternatives b) := by
  rw [alternatives_append_pipe, hA, hB]
  simp [get, ha, hb]

theorem fallback_second_alternative_witness :
    alternatives "offer.date" = ["offer.date"] ∧
    alternatives "offer_date" = ["offer_date"] ∧
    get_direct (Yaml.hash [(Yaml.string "offer_date", Yaml.string "08.11.2019")]) "offer.date"
      = none ∧
    get_direct (Yaml.hash [(Yaml.string "offer_date", Yaml.string "08.11.2019")]) "offer_date"
      = some (Yaml.string "08.11.2019") ∧
    get (Yaml.hash [(Yaml.string "offer_date", Yaml.string "08.11.2019")])
        (alternatives ("offer.date" ++ "|" ++ "offer_date"))
      = get (Yaml.hash [(Yaml.string "offer_date", Yaml.string "08.11.2019")])
          (alternatives "offer_date") :=
  ⟨rfl, rfl, rfl, rfl,
    fallback_second_alternative _ "offer.date" "offer_date" _ rfl rfl rfl rfl⟩

theorem get_direct_single (entries : List (Yaml × Yaml)) (k : String)
    (hE : elements k = [k]) :
    get_direct (Yaml.hash entries) k =
      match hashGet entries k with
      | some .badValue => none
      | some .null => none
      | content => content := by
  simp [get_direct, hE, get_path]

/-- C3: Null/absent equivalence — on a Hash document and a
single-alternative path naming a key, the string getter yields
`FieldError::Missing` both when the key is entirely absent and when it is
present with an explicit `Null` (or `BadValue`) value; the caller cannot
distinguish the situations. -/
theorem null_absent_equivalence (entries : List (Yaml × Yaml)) (k : String)
    (hk : plainKey k)
    (h : hashGet entries k = none ∨ hashGet entries k = some Yaml.null ∨
      hashGet entries k = some Yaml.badValue) :
    get_str (Yaml.hash entries) k = some (Except.error FieldError.missing) := by
  have hw : k.data.any Char.isWhitespace = false := by
    rw [List.any_eq_false]
    exact fun c hc => by simp [(hk c hc).1]
  have hA : alternatives k = [k] :=
    alternatives_eq_single k (fun c hc => (hk c hc).2.1)
  have hE : elements k = [k] :=
    elements_eq_single k (fun c hc => by simp [(hk c hc).2.2.1, (hk c hc).2.2.2])
  have hgd : get_direct (Yaml.hash entries) k = none := by
    rw [get_direct_single entries k hE]
    rcases h with h | h | h <;> rw [h]
  simp [get_str, field, ypaths?, hw, hA, get, hgd]

theorem null_absent_equivalence_witness :
    (plainKey "a" ∧
      hashGet [(Yaml.string "a", Yaml.null)] "a" = some Yaml.null ∧
      get_str (Yaml.hash [(Yaml.string "a", Yaml.null)]) "a"
        = some (Except.error FieldError.missing)) ∧
    (plainKey "b" ∧
      hashGet [(Yaml.string "a", Yaml.null)] "b" = none ∧
      get_str (Yaml.hash [(Yaml.string "a", Yaml.null)]) "b"
        = some (Except.error FieldError.missing)) :=
  ⟨⟨by decide, rfl,
      null_absent_equivalence [(Yaml.string "a", Yaml.null)] "a" (by decide)
        (Or.inr (Or.inl rfl))⟩,
    ⟨by decide, rfl,
      null_absent_equivalence [(Yaml.string "a", Yaml.null)] "b" (by decide)
        (Or.inl rfl)⟩⟩

/-- C4: Lenient boolean quirk — when the addressed node is a String `s`,
`get_bool` succeeds with `true` exactly when `s` lowercased equals
`"yes"`; every other string (including `"no"` and `"true"`) yields
`Ok false`, not an error; a native Boolean node is returned as its own
value. -/
theorem lenient_bool_quirk :
    (∀ (data : Yaml) (path : String) (alts : List String) (s : String),
        ypaths? path = some alts → get data alts = some (Yaml.string s) →
        get_bool data path = some (Except.ok (lowercase s == "yes"))) ∧
    (∀ (data : Yaml) (path : String) (alts : List String) (b : Bool),
        ypaths? path = some alts → get data alts = some (Yaml.boolean b) →
        get_bool data path = some (Except.ok b)) := by
  constructor
  · intro data path alts s hy hg
    simp [get_bool, field, hy, hg, Yaml.as_bool, Yaml.as_str, Option.orElse]
    generalize lowercase s = t
    split <;> simp_all
  · intro data path alts b hy hg
    simp [get_bool, field, hy, hg, Yaml.as_bool, Option.orElse]

theorem lenient_bool_quirk_witness :
    (ypaths? "k" = some ["k"] ∧
      get (Yaml.hash [(Yaml.string "k", Yaml.string "Yes")]) ["k"]
        = some (Yaml.string "Yes") ∧
      get_bool (Yaml.hash [(Yaml.string "k", Yaml.string "Yes")]) "k"
        = some (Except.ok true)) ∧
    (get (Yaml.hash [(Yaml.string "k", Yaml.string "no")]) ["k"]
        = some (Yaml.string "no") ∧
      get_bool (Yaml.hash [(Yaml.string "k", Yaml.string "no")]) "k"
        = some (Except.ok false)) ∧
    (get (Yaml.hash [(Yaml.string "k", Yaml.string "true")]) ["k"]
        = some (Yaml.string "true") ∧
      get_bool (Yaml.hash [(Yaml.string "k", Yaml.string "true")]) "k"
        = some (Except.ok false)) ∧
    (get (Yaml.hash [(Yaml.string "k", Yaml.boolean true)]) ["k"]
        = some (Yaml.boolean true) ∧
      get_bool (Yaml.hash [(Yaml.string "k", Yaml.boolean true)]) "k"
        = some (Except.ok true)) :=
  ⟨⟨rfl, rfl, lenient_bool_quirk.1 _ "k" ["k"] "Yes" rfl rfl⟩,
    ⟨rfl, lenient_bool_quirk.1 _ "k" ["k"] "no" rfl rfl⟩,
    ⟨rfl, lenient_bool_quirk.1 _ "k" ["k"] "true" rfl rfl⟩,
    ⟨rfl, lenient_bool_quirk.2 _ "k" ["k"] true rfl rfl⟩⟩

/-- C5: Whitespace rejection — a path expression containing whitespace
anywhere makes the lookup fail loudly (the modelled `YPaths` conversion
asserts, so the getter never returns a result), rather than silently
resolving or treating the whitespace as part of a key segment. -/
theorem whitespace_rejected (data : Yaml) (path : String)
    (h : path.data.any Char.isWhitespace = true) :
    get_str data path = none := by
  simp [get_str, field, ypaths?, h]

theorem whitespace_rejected_witness :
    ("offer.date | offer_date").data.any Char.isWhitespace = true ∧
    get_str (Yaml.hash [(Yaml.string "offer_date", Yaml.string "08.11.2019")])
      "offer.date | offer_date" = none :=
  ⟨rfl, whitespace_rejected _ "offer.date | offer_date" rfl⟩

/-- C6: Type mismatch yields Invalid, not Missing — when the addressed
path resolves to a String node, `get_int` returns
`FieldError::Invalid` with a message embedding the caller-supplied label
and the node's debug rendering; moreover `Invalid` and `Missing` are
distinct error variants, distinguishable programmatically. -/
theorem type_mismatch_invalid :
    (∀ (data : Yaml) (path : String) (alts : List String) (s : String),
        ypaths? path = some alts → get data alts = some (Yaml.string s) →
        get_int data path = some (Except.error (FieldError.invalid
          ("not an integer" ++ " (" ++ debugRepr (Yaml.string s) ++ ")")))) ∧
    (∀ msg : String, FieldError.invalid msg ≠ FieldError.missing) := by
  constructor
  · intro data path alts s hy hg
    simp [get_int, field, hy, hg, Yaml.as_i64]
  · intro msg h
    exact FieldError.noConfusion h

theorem type_mismatch_invalid_witness :
    (ypaths? "k" = some ["k"] ∧
      get (Yaml.hash [(Yaml.string "k", Yaml.string "v")]) ["k"]
        = some (Yaml.string "v") ∧
      get_int (Yaml.hash [(Yaml.string "k", Yaml.string "v")]) "k"
        = some (Except.error (FieldError.invalid
            ("not an integer" ++ " (" ++ debugRepr (Yaml.string "v") ++ ")")))) ∧
    FieldError.invalid "not an integer (String(\"v\"))" ≠ FieldError.missing :=
  ⟨⟨rfl, rfl, type_mismatch_invalid.1 _ "k" ["k"] "v" rfl rfl⟩,
    type_mismatch_invalid.2 _⟩

/-- C7: Array index resolution — against an Array node, a segment that
parses as a base-10 non-negative integer `n` resolves to the element at
0-based offset `n`, and a segment that does not parse as such an integer
yields not-found (`none`) for the whole alternative, never an error or
panic. -/
theorem array_index_resolution :
    (∀ (vec : List Yaml) (seg : String) (n : Nat),
        parseUsize seg = some n →
        get_path (Yaml.array vec) [seg] = vec.get? n) ∧
    (∀ (vec : List Yaml) (seg : String) (rest : List String),
        parseUsize seg = none →
        get_path (Yaml.array vec) (seg :: rest) = none) := by
  constructor
  · intro vec seg n h
    simp [get_path, h]
  · intro vec seg rest h
    simp [get_path, h]

theorem array_index_resolution_witness :
    (parseUsize "2" = some 2 ∧
      get_path (Yaml.array [Yaml.integer 10, Yaml.integer 11, Yaml.integer 12]) ["2"]
        = [Yaml.integer 10, Yaml.integer 11, Yaml.integer 12].get? 2 ∧
      [Yaml.integer 10, Yaml.integer 11, Yaml.integer 12].get? 2
        = some (Yaml.integer 12)) ∧
    (parseUsize "x" = none ∧
      get_path (Yaml.array [Yaml.integer 10, Yaml.integer 11, Yaml.integer 12]) ["x"]
        = none) :=
  ⟨⟨rfl, array_index_resolution.1 _ "2" 2 rfl, rfl⟩,
    ⟨rfl, array_index_resolution.2 _ "x" [] rfl⟩⟩

/-- C8: Float widening — when the addressed path resolves to an Integer
node `i`, `get_f64` succeeds with the numerically equal float
(`Float.ofInt i`, Rust's `i as f64`); a Float (`Real`) node is returned
as-is. -/
theorem float_widening :
    (∀ (data : Yaml) (path : String) (alts : List String) (i : Int),
        ypaths? path = some alts → get data alts = some (Yaml.integer i) →
        get_f64 data path = some (Except.ok (Float.ofInt i))) ∧
    (∀ (data : Yaml) (path : String) (alts : List String) (f : Float),
        ypaths? path = some alts → get data alts = some (Yaml.real f) →
        get_f64 data path = some (Except.ok f)) := by
  constructor <;> intro data path alts x hy hg <;>
    simp [get_f64, field, hy, hg, Yaml.as_f64, Yaml.as_i64, Option.orElse]

theorem float_widening_witness :
    (ypaths? "n" = some ["n"] ∧
      get (Yaml.hash [(Yaml.string "n", Yaml.integer 7)]) ["n"]
        = some (Yaml.integer 7) ∧
      get_f64 (Yaml.hash [(Yaml.string "n", Yaml.integer 7)]) "n"
        = some (Except.ok (Float.ofInt 7))) ∧
    (get (Yaml.hash [(Yaml.string "x", Yaml.real 2.5)]) ["x"]
        = some (Yaml.real 2.5) ∧
      get_f64 (Yaml.hash [(Yaml.string "x", Yaml.real 2.5)]) "x"
        = some (Except.ok (2.5 : Float))) :=
  ⟨⟨rfl, rfl, float_widening.1 _ "n" ["n"] 7 rfl rfl⟩,
    ⟨rfl, float_widening.2 _ "x" ["x"] 2.5 rfl rfl⟩⟩

/-- C9: Path longer than data — on every scalar node (String, Integer,
Float, Boolean, Null or BadValue) with at least one segment remaining,
`get_path` returns `none`: a normal outcome, never an error or panic. -/
theorem scalar_path_too_long (node : Yaml) (h : isScalar node = true)
    (seg : String) (rest : List String) :
    get_path node (seg :: rest) = none := by
  cases node <;> simp_all [isScalar, get_path]

theorem scalar_path_too_long_witness :
    isScalar (Yaml.string "x") = true ∧
    get_path (Yaml.string "x") ["a"] = none :=
  ⟨rfl, scalar_path_too_long (Yaml.string "x") rfl "a" []⟩

/-- C10: Empty segment sequence — for every document tree node without
exception, `get_path` on an empty segment list returns `none`: total and
deterministic, never a panic and never a successful resolution of the node
itself. -/
theorem empty_segments_not_found (node : Yaml) : get_path node [] = none := by
  cases node <;> rfl
